import Mathlib

/-!
Verification of `scripts/sort-core-feeds.py`.

The script normalizes a feed catalog (a Python dict mapping category names to
lists of feed URL strings): it deduplicates and sorts each category's entries,
sorts the categories, regenerates the source file `core_feeds.py`, rewrites it
only when the serialized content changed, and, on request (`--output-issues`),
audits a directory of locale JSON files for missing category translations and
emits an issue report.

We model the catalog as an association list `List (String × List String)` (a
Python dict is an insertion-ordered map with distinct keys; where distinctness
matters a `Nodup` hypothesis makes it explicit).  Python string comparison is
lexicographic on code points, matching the order on `String` used here.
Python's `sorted` is modelled by `List.insertionSort (· ≤ ·)`: on the lists the
script sorts (dict keys, elements of a set) all elements are distinct, so every
correct comparison sort produces the same list.  Python's `set(l)` is modelled
by `l.dedup` followed by sorting: iteration order of a Python set is
unspecified, but the script only ever sorts the set (`sorted(list(set(...)))`)
or tests membership / iterates where the claims proved below are insensitive to
the enumeration order, so any duplicate-free enumeration of the elements is a
faithful model.  The dynamic `importlib` load of `core_feeds.py` (Python
`exec`) is outside the shallow embedding: `run` below takes the loaded `feeds`
attribute as an explicit `Option` argument, and the idempotence theorem feeds
the normalized catalog back in, which is what re-executing the regenerated
file produces.
-/

namespace SortCoreFeeds

/-- `CORE_FEEDS_FILE = 'core_feeds.py'` (line 10). -/
def CORE_FEEDS_FILE : String := "core_feeds.py"

/-- A feed catalog: the `feeds` dict, as an insertion-ordered association list
from category name to list of feed strings. -/
abbrev Catalog := List (String × List String)

/-- The catalog's key list, i.e. `feeds_dict.keys()` in iteration order. -/
def keys (f : Catalog) : List String := f.map Prod.fst

/-- `feeds_dict[category]`: the value stored for `category` (first binding),
defaulting to `[]` — the script only indexes with keys of the dict, so the
default is never reached there. -/
def lookupD (f : Catalog) (c : String) : List String :=
  ((f.find? (fun p => p.1 == c)).map Prod.snd).getD []

/-- Python's `sorted` on a list of strings. -/
def pySorted (l : List String) : List String := l.insertionSort (· ≤ ·)

/-- `sorted(list(set(l)))` (line 76): the distinct elements of `l`, sorted. -/
def sortedSet (l : List String) : List String := pySorted l.dedup

/-- `sorted(feeds_dict.keys())` (line 74 and line 99). -/
def sortedKeys (f : Catalog) : List String := pySorted (keys f)

/-- The normalized catalog built by the loop of lines 74–95: iterate the
categories in sorted order and store `sorted(list(set(original_feeds)))` for
each (`sorted_feeds[category] = unique_feeds`). -/
def normalizeCatalog (f : Catalog) : Catalog :=
  (sortedKeys f).map (fun c => (c, sortedSet (lookupD f c)))

/-- The duplicate-collecting loop of lines 79–85: walk the entries keeping a
`seen` set, recording each entry already seen. -/
def dupScan : List String → List String → List String
  | [], _ => []
  | feed :: rest, seen =>
    if feed ∈ seen then feed :: dupScan rest seen
    else dupScan rest (feed :: seen)

/-- `duplicates` for one category: the loop started with an empty `seen` set. -/
def duplicates (l : List String) : List String := dupScan l []

/-- `total_dupes` after the loop of lines 72–95: per category (in sorted order)
add `dupes = len(duplicates)` when it is positive (line 89–93). -/
def totalDupes (f : Catalog) : Nat :=
  (sortedKeys f).foldl
    (fun acc c =>
      let d := (duplicates (lookupD f c)).length
      if 0 < d then acc + d else acc) 0

/-! ### Serializing the catalog back to `core_feeds.py` -/

/-- The lines of one category block (lines 102–105): a header, one line per
feed, and the closing bracket, with a trailing comma unless this is the last
category (`i < len(categories) - 1`). -/
def catLines (n : Catalog) (c : String) (isLast : Bool) : List String :=
  ("    \x22" ++ c ++ "\x22: [")
    :: (lookupD n c).map (fun feed => "        \x22" ++ feed ++ "\x22,")
    ++ [if isLast then "    ]" else "    ],"]

/-- The blocks of all categories in order, flagging the last one. -/
def blockLines (n : Catalog) : List String → List String
  | [] => []
  | [c] => catLines n c true
  | c :: rest@(_ :: _) => catLines n c false ++ blockLines n rest

/-- Lines 97–108: the regenerated file content — `feeds = {`, the category
blocks over `sorted(sorted_feeds.keys())`, `}`, joined with newlines plus a
trailing newline. -/
def serializeCatalog (n : Catalog) : String :=
  String.intercalate "\n"
    (("feeds = \x7b" :: blockLines n (pySorted (keys n))) ++ ["\x7d"]) ++ "\n"

/-! ### The translation auditor -/

/-- One issue record as appended at lines 42–47. -/
structure Issue where
  type : String
  file : String
  message : String
  severity : String
deriving DecidableEq

/-- A locale JSON document, reduced to what the script inspects: the key list
of its top-level `categories` object when that key is present
(`locale_data.get('categories', {})`, line 41). -/
structure LocaleDoc where
  categoriesKeys : Option (List String)
deriving DecidableEq

/-- `locale_data.get('categories', {})`, as the keys the `in` test sees. -/
def getCategories (d : LocaleDoc) : List String := d.categoriesKeys.getD []

/-- The issue built at lines 42–47 for one missing category of one locale. -/
def missingIssue (localeName category : String) : Issue :=
  { type := "missing"
  , file := "src/lib/locales/" ++ localeName ++ ".json"
  , message := "Missing translation for core category \x27" ++ category ++ "\x27"
  , severity := "warning" }

/-- The inner loop of lines 40–47 for one locale file: one issue per core
category absent from the document's `categories` object. -/
def localeIssues (coreCategories : List String) (localeName : String)
    (doc : LocaleDoc) : List Issue :=
  (coreCategories.filter (fun c => !((getCategories doc).contains c))).map
    (missingIssue localeName)

/-- `analyze_translations` (lines 13–49).  The first argument models the two
early returns: `none` when `core_feeds.py` does not exist (lines 18–19),
`some none` when the loaded module has no `feeds` attribute (lines 25–26).
`core_categories = set(core_feeds_module.feeds.keys())` is modelled by the
duplicate-free key list (a Python set enumerates each element once, in an
unspecified order); locale files are given as (stem, document) pairs in glob
order. -/
def analyzeTranslations (coreFeedsFile : Option (Option Catalog))
    (locales : List (String × LocaleDoc)) : List Issue :=
  match coreFeedsFile with
  | none => []
  | some none => []
  | some (some feeds) =>
    (locales.map (fun l => localeIssues (keys feeds).dedup l.1 l.2)).flatten

/-- The issue report of lines 140–148. -/
structure IssueReport where
  type : String
  issues : List Issue
  totalIssues : Nat
  byType : List (String × Nat)
  timestamp : String
deriving DecidableEq

/-- One step of the counting loop of lines 134–137:
`by_type[t] = by_type.get(t, 0) + 1` on an insertion-ordered dict. -/
def bumpType (m : List (String × Nat)) (t : String) : List (String × Nat) :=
  if m.any (fun p => p.1 == t) then
    m.map (fun p => if p.1 == t then (p.1, p.2 + 1) else p)
  else m ++ [(t, 1)]

/-- `by_type` after the loop of lines 134–137. -/
def countByType (issues : List Issue) : List (String × Nat) :=
  issues.foldl (fun m i => bumpType m i.type) []

/-- `issues_output` (lines 140–148): `totalIssues` is `len(issues)`. -/
def mkIssueReport (issues : List Issue) (timestamp : String) : IssueReport :=
  { type := "feeds"
  , issues := issues
  , totalIssues := issues.length
  , byType := countByType issues
  , timestamp := timestamp }

/-! ### Argument handling and the `main` entry point -/

/-- Lines 124–128: `output_file` is the argument after the first
`--output-file`, when `--output-file` occurs and is not the last argument. -/
def outputFileArg (argv : List String) : Option String :=
  if "--output-file" ∈ argv then
    argv[(argv.findIdx (fun a => a == "--output-file")) + 1]?
  else none

/-- The messages printed for one category with duplicates (lines 89–92). -/
def categoryDupMessages (c : String) (ds : List String) : List String :=
  if 0 < ds.length then
    ("  🔹 " ++ c ++ ": removed " ++ toString ds.length ++ " duplicate(s)")
      :: ds.map (fun dup => "      - " ++ dup)
  else []

/-- All per-category duplicate messages, in sorted category order. -/
def dupMessages (f : Catalog) : List String :=
  ((sortedKeys f).map
    (fun c => categoryDupMessages c (duplicates (lookupD f c)))).flatten

/-- The observable outcome of one run of `main`: the exit code, the content
written to `core_feeds.py` (if rewritten), the issue report written to the
output file or printed to stdout (if any), the other printed messages, and
the `total_dupes` counter. -/
structure RunResult where
  exitCode : Nat
  feedsWrite : Option String
  issuesWrite : Option (String × IssueReport)
  issuesPrint : Option IssueReport
  messages : List String
  dupesRemoved : Nat
deriving DecidableEq

/-- `main` when the file exists and defines `feeds` (lines 57–156).
`analyze_translations` re-imports `core_feeds.py` from disk (lines 21–23);
at that point the file holds the normalized catalog (it was either just
rewritten to `new_content`, or unchanged because it already serialized the
normalized catalog), so the re-loaded `feeds` is `normalizeCatalog feeds` —
the model passes it directly, standing in for the dynamic import.
Line 150 tests `if output_file:` — Python truthiness — so a present but empty
path string counts as unset and the report is printed instead of written. -/
def runSome (originalContent : String) (feeds : Catalog) (argv : List String)
    (locales : List (String × LocaleDoc)) (timestamp : String) : RunResult :=
  let sortedFeeds := normalizeCatalog feeds
  let newContent := serializeCatalog sortedFeeds
  let base : RunResult :=
    { exitCode := 0
    , feedsWrite := if newContent ≠ originalContent then some newContent else none
    , issuesWrite := none
    , issuesPrint := none
    , messages := ("📄 Reading " ++ CORE_FEEDS_FILE) :: dupMessages feeds
        ++ [if newContent ≠ originalContent then
              "✅ " ++ CORE_FEEDS_FILE ++ " sorted. Categories: "
                ++ toString sortedFeeds.length ++ ", Duplicates removed: "
                ++ toString (totalDupes feeds)
            else "ℹ️  No changes – core feeds already sorted"]
    , dupesRemoved := totalDupes feeds }
  if "--output-issues" ∈ argv then
    let issues := analyzeTranslations (some (some sortedFeeds)) locales
    let report := mkIssueReport issues timestamp
    match outputFileArg argv with
    | some path =>
      if path ≠ "" then { base with issuesWrite := some (path, report) }
      else { base with issuesPrint := some report }
    | none => { base with issuesPrint := some report }
  else base

/-- `main` (lines 51–156).  `fileExists` models `Path(CORE_FEEDS_FILE).exists()`,
`originalContent` the file's current content, and `feedsAttr` the result of the
dynamic module load: `none` when the loaded module has no `feeds` attribute
(lines 64–66), otherwise the loaded dict. -/
def run (fileExists : Bool) (originalContent : String)
    (feedsAttr : Option Catalog) (argv : List String)
    (locales : List (String × LocaleDoc)) (timestamp : String) : RunResult :=
  if fileExists then
    match feedsAttr with
    | none =>
      { exitCode := 1
      , feedsWrite := none
      , issuesWrite := none
      , issuesPrint := none
      , messages := ["📄 Reading " ++ CORE_FEEDS_FILE,
          "❌ Could not find \x27feeds\x27 dictionary in core_feeds.py"]
      , dupesRemoved := 0 }
    | some feeds => runSome originalContent feeds argv locales timestamp
  else
    { exitCode := 0
    , feedsWrite := none
    , issuesWrite := none
    , issuesPrint := none
    , messages := ["ℹ️  " ++ CORE_FEEDS_FILE ++ " does not exist, skipping"]
    , dupesRemoved := 0 }

end SortCoreFeeds

namespace SortCoreFeeds

/-! ### Basic lemmas about the normalizer -/

theorem mem_pySorted {l : List String} {x : String} :
    x ∈ pySorted l ↔ x ∈ l := List.mem_insertionSort _

theorem pySorted_sorted (l : List String) : (pySorted l).Sorted (· ≤ ·) :=
  List.sorted_insertionSort _ l

theorem pySorted_nodup {l : List String} (h : l.Nodup) : (pySorted l).Nodup :=
  ((List.perm_insertionSort _ l).nodup_iff).mpr h

theorem sortedSet_nodup (l : List String) : (sortedSet l).Nodup :=
  pySorted_nodup (List.nodup_dedup l)

theorem sortedSet_sorted_lt (l : List String) :
    (sortedSet l).Sorted (· < ·) :=
  (pySorted_sorted l.dedup).lt_of_le (sortedSet_nodup l)

theorem mem_sortedSet {l : List String} {x : String} :
    x ∈ sortedSet l ↔ x ∈ l := by
  unfold sortedSet
  rw [mem_pySorted, List.mem_dedup]

/-- `find?` over a list built by mapping a key-to-pair function: the first hit
at a member key returns that key's pair. -/
theorem find?_map_key {cs : List String} {c : String}
    (g : String → List String) (hc : c ∈ cs) :
    ((cs.map (fun k => (k, g k))).find? (fun p => p.1 == c)) = some (c, g c) := by
  induction cs with
  | nil => cases hc
  | cons k rest ih =>
    by_cases hk : k = c
    · subst hk
      simp [List.find?]
    · have hc' : c ∈ rest := by
        cases hc with
        | head => exact absurd rfl hk
        | tail _ h => exact h
      simp only [List.map_cons, List.find?]
      have : ((k, g k).1 == c) = false := by
        simp [hk]
      rw [this]
      exact ih hc'

theorem mem_sortedKeys {f : Catalog} {c : String} :
    c ∈ sortedKeys f ↔ c ∈ keys f := mem_pySorted

/-- Looking up a key of the original catalog in the normalized one yields the
sorted deduplicated entry list. -/
theorem lookupD_normalizeCatalog {f : Catalog} {c : String} (hc : c ∈ keys f) :
    lookupD (normalizeCatalog f) c = sortedSet (lookupD f c) := by
  unfold lookupD normalizeCatalog
  rw [find?_map_key (fun k => sortedSet (lookupD f k)) (mem_sortedKeys.mpr hc)]
  rfl

end SortCoreFeeds

namespace SortCoreFeeds

/-! ### Counting the duplicates removed -/

/-- Splitting a `countP` at one member that satisfies the predicate: on a
duplicate-free list it contributes exactly one to the count. -/
theorem countP_split_at_mem {m : List String} {a : String} (hm : m.Nodup)
    (ha : a ∈ m) (p : String → Bool) (hp : p a = true) :
    m.countP p = m.countP (fun x => p x && !(x == a)) + 1 := by
  have hperm : List.Perm m (a :: m.erase a) := List.perm_cons_erase ha
  have hni : a ∉ m.erase a := hm.not_mem_erase
  rw [hperm.countP_eq p, hperm.countP_eq (fun x => p x && !(x == a))]
  rw [List.countP_cons, List.countP_cons]
  have h1 : (p a && !(a == a)) = false := by simp
  have h2 : (m.erase a).countP (fun x => p x && !(x == a)) = (m.erase a).countP p := by
    apply List.countP_congr
    intro x hx
    have hxa : x ≠ a := fun h => hni (h ▸ hx)
    simp [hxa]
  rw [h2]
  simp [hp]

/-- Invariant of the duplicate-collecting loop: the entries of `l` split into
the duplicates recorded and the distinct entries not yet `seen`. -/
theorem dupScan_length (l : List String) :
    ∀ seen : List String,
      (dupScan l seen).length + l.dedup.countP (fun x => decide (x ∉ seen))
        = l.length := by
  induction l with
  | nil => intro seen; simp [dupScan]
  | cons feed rest ih =>
    intro seen
    by_cases hseen : feed ∈ seen
    · rw [dupScan, if_pos hseen]
      have hdrop : (feed :: rest).dedup.countP (fun x => decide (x ∉ seen))
          = rest.dedup.countP (fun x => decide (x ∉ seen)) := by
        by_cases hfr : feed ∈ rest
        · rw [List.dedup_cons_of_mem hfr]
        · rw [List.dedup_cons_of_not_mem hfr, List.countP_cons]
          simp [hseen]
      simp only [List.length_cons, hdrop]
      have := ih seen
      omega
    · rw [dupScan, if_neg hseen]
      have ih' := ih (feed :: seen)
      have hsplit : (feed :: rest).dedup.countP (fun x => decide (x ∉ seen))
          = rest.dedup.countP (fun x => decide (x ∉ feed :: seen)) + 1 := by
        by_cases hfr : feed ∈ rest
        · rw [List.dedup_cons_of_mem hfr]
          rw [countP_split_at_mem (List.nodup_dedup rest)
            (List.mem_dedup.mpr hfr) _ (by simp [hseen])]
          have hmem : ∀ x ∈ rest.dedup,
              ((decide (x ∉ seen) && !(x == feed)) = true
                ↔ (decide (x ∉ feed :: seen)) = true) := by
            intro x _
            by_cases hxf : x = feed
            · simp [hxf, hseen]
            · by_cases hxs : x ∈ seen <;> simp [hxf, hxs]
          rw [List.countP_congr hmem]
        · rw [List.dedup_cons_of_not_mem hfr, List.countP_cons]
          have hfeed : (decide (feed ∉ seen)) = true := by simp [hseen]
          have hrest : rest.dedup.countP (fun x => decide (x ∉ seen))
              = rest.dedup.countP (fun x => decide (x ∉ feed :: seen)) := by
            apply List.countP_congr
            intro x hx
            have hxf : x ≠ feed := fun h => hfr (h ▸ List.mem_dedup.mp hx)
            by_cases hxs : x ∈ seen <;> simp [hxf, hxs]
          rw [hfeed, hrest]
          simp
      simp only [List.length_cons, hsplit]
      omega

/-- The loop records `len(input) - len(set(input))` duplicates. -/
theorem duplicates_length (l : List String) :
    (duplicates l).length = l.length - l.dedup.length := by
  have h := dupScan_length l []
  have hall : l.dedup.countP (fun x => decide (x ∉ ([] : List String)))
      = l.dedup.length := by
    simp
  rw [hall] at h
  unfold duplicates
  omega

/-- On a duplicate-free input the loop records no duplicates. -/
theorem duplicates_eq_nil_of_nodup {l : List String} (h : l.Nodup) :
    duplicates l = [] := by
  have := duplicates_length l
  rw [List.dedup_eq_self.mpr h] at this
  have hlen : (duplicates l).length = 0 := by omega
  exact List.length_eq_zero.mp hlen

/-- The accumulate-if-positive loop sums the per-category counts. -/
theorem foldl_if_add_eq_sum (g : String → Nat) :
    ∀ (l : List String) (n : Nat),
      l.foldl (fun acc c => if 0 < g c then acc + g c else acc) n
        = n + (l.map g).sum := by
  intro l
  induction l with
  | nil => intro n; simp
  | cons c rest ih =>
    intro n
    rw [List.foldl_cons, ih, List.map_cons, List.sum_cons]
    by_cases h : 0 < g c
    · rw [if_pos h]; omega
    · rw [if_neg h]; omega

/-- The running total adds each category's duplicate count (the `dupes > 0`
guard only skips additions of zero). -/
theorem totalDupes_eq_sum (f : Catalog) :
    totalDupes f
      = ((sortedKeys f).map (fun c => (duplicates (lookupD f c)).length)).sum := by
  unfold totalDupes
  rw [foldl_if_add_eq_sum (fun c => (duplicates (lookupD f c)).length)]
  omega

/-- C1: for every category of the loaded catalog, the normalized entry list is
the lexicographically sorted list of the distinct elements of the input entry
list — it is strictly sorted (hence duplicate-free) and has exactly the input
list's members. -/
theorem normalized_entries_eq_sorted_set (f : Catalog) (c : String)
    (hc : c ∈ keys f) :
    (lookupD (normalizeCatalog f) c).Sorted (· < ·) ∧
      ∀ x, x ∈ lookupD (normalizeCatalog f) c ↔ x ∈ lookupD f c := by
  rw [lookupD_normalizeCatalog hc]
  exact ⟨sortedSet_sorted_lt _, fun x => mem_sortedSet⟩

/-- Witness for C1 on the spec's scenario catalog. -/
theorem normalized_entries_eq_sorted_set_witness :
    ("tech" ∈ keys [("tech", ["b.com", "a.com", "a.com"])]) ∧
      ((lookupD (normalizeCatalog [("tech", ["b.com", "a.com", "a.com"])]) "tech").Sorted (· < ·) ∧
        ∀ x, x ∈ lookupD (normalizeCatalog [("tech", ["b.com", "a.com", "a.com"])]) "tech" ↔
          x ∈ lookupD [("tech", ["b.com", "a.com", "a.com"])] "tech") :=
  ⟨by decide,
    normalized_entries_eq_sorted_set [("tech", ["b.com", "a.com", "a.com"])] "tech" (by decide)⟩

/-! ### Idempotence of the normalizer -/

theorem pySorted_eq_self_of_sorted {l : List String} (h : l.Sorted (· ≤ ·)) :
    pySorted l = l := h.insertionSort_eq

theorem sortedSet_idem (l : List String) :
    sortedSet (sortedSet l) = sortedSet l := by
  show pySorted (sortedSet l).dedup = sortedSet l
  rw [List.dedup_eq_self.mpr (sortedSet_nodup l)]
  exact pySorted_eq_self_of_sorted (pySorted_sorted l.dedup)

theorem keys_normalizeCatalog (f : Catalog) :
    keys (normalizeCatalog f) = sortedKeys f := by
  unfold keys normalizeCatalog
  rw [List.map_map]
  exact List.map_id _

theorem sortedKeys_normalizeCatalog (f : Catalog) :
    sortedKeys (normalizeCatalog f) = sortedKeys f := by
  unfold sortedKeys
  rw [show keys (normalizeCatalog f) = sortedKeys f from keys_normalizeCatalog f]
  exact pySorted_eq_self_of_sorted (pySorted_sorted (keys f))

theorem normalizeCatalog_idem (f : Catalog) :
    normalizeCatalog (normalizeCatalog f) = normalizeCatalog f := by
  show (sortedKeys (normalizeCatalog f)).map
      (fun c => (c, sortedSet (lookupD (normalizeCatalog f) c)))
    = (sortedKeys f).map (fun c => (c, sortedSet (lookupD f c)))
  rw [sortedKeys_normalizeCatalog]
  apply List.map_congr_left
  intro c hc
  rw [lookupD_normalizeCatalog (mem_sortedKeys.mp hc), sortedSet_idem]

theorem totalDupes_normalizeCatalog (f : Catalog) :
    totalDupes (normalizeCatalog f) = 0 := by
  rw [totalDupes_eq_sum]
  apply List.sum_eq_zero
  intro x hx
  rw [List.mem_map] at hx
  obtain ⟨c, hc, rfl⟩ := hx
  have hck : c ∈ keys f := by
    have h1 : c ∈ keys (normalizeCatalog f) := mem_sortedKeys.mp hc
    rw [keys_normalizeCatalog] at h1
    exact mem_sortedKeys.mp h1
  rw [lookupD_normalizeCatalog hck,
    duplicates_eq_nil_of_nodup (sortedSet_nodup (lookupD f c))]
  rfl

/-! ### Shape lemmas for `run` -/

theorem run_some_eq (content : String) (f : Catalog) (argv : List String)
    (locales : List (String × LocaleDoc)) (ts : String) :
    run true content (some f) argv locales ts = runSome content f argv locales ts := rfl

theorem runSome_exitCode (content : String) (f : Catalog) (argv : List String)
    (locales : List (String × LocaleDoc)) (ts : String) :
    (runSome content f argv locales ts).exitCode = 0 := by
  simp only [runSome]
  split
  · split
    · split <;> rfl
    · rfl
  · rfl

theorem runSome_feedsWrite (content : String) (f : Catalog) (argv : List String)
    (locales : List (String × LocaleDoc)) (ts : String) :
    (runSome content f argv locales ts).feedsWrite
      = if serializeCatalog (normalizeCatalog f) ≠ content
        then some (serializeCatalog (normalizeCatalog f)) else none := by
  simp only [runSome]
  split
  · split
    · split <;> rfl
    · rfl
  · rfl

theorem runSome_dupesRemoved (content : String) (f : Catalog) (argv : List String)
    (locales : List (String × LocaleDoc)) (ts : String) :
    (runSome content f argv locales ts).dupesRemoved = totalDupes f := by
  simp only [runSome]
  split
  · split
    · split <;> rfl
    · rfl
  · rfl

theorem runSome_issues_of_outputFile (content : String) (f : Catalog)
    (argv : List String) (locales : List (String × LocaleDoc)) (ts : String)
    {path : String} (h1 : "--output-issues" ∈ argv)
    (h2 : outputFileArg argv = some path) (hp : path ≠ "") :
    (runSome content f argv locales ts).issuesWrite
      = some (path,
          mkIssueReport
            (analyzeTranslations (some (some (normalizeCatalog f))) locales) ts)
      ∧ (runSome content f argv locales ts).issuesPrint = none := by
  simp only [runSome, if_pos h1, h2]
  rw [if_pos hp]
  constructor <;> trivial

theorem runSome_issues_of_no_outputFile (content : String) (f : Catalog)
    (argv : List String) (locales : List (String × LocaleDoc)) (ts : String)
    (h1 : "--output-issues" ∈ argv) (h2 : outputFileArg argv = none) :
    (runSome content f argv locales ts).issuesWrite = none
      ∧ (runSome content f argv locales ts).issuesPrint
        = some (mkIssueReport
            (analyzeTranslations (some (some (normalizeCatalog f))) locales) ts) := by
  simp only [runSome, if_pos h1, h2]
  constructor <;> trivial

/-! ### Claims C2, C4, C5, C6, C7, C8 -/

/-- C2: the normalizer is idempotent — one pass already yields a fixed point.
Running `main` again on the output of a first run (the file now holds the
serialization of the normalized catalog, and loading it yields that catalog)
regenerates byte-for-byte identical content, so the file is not rewritten,
zero further duplicates are removed, and the run succeeds. -/
theorem normalizer_idempotent (f : Catalog) (argv : List String)
    (locales : List (String × LocaleDoc)) (ts : String) :
    normalizeCatalog (normalizeCatalog f) = normalizeCatalog f ∧
    (run true (serializeCatalog (normalizeCatalog f)) (some (normalizeCatalog f))
        argv locales ts).feedsWrite = none ∧
    (run true (serializeCatalog (normalizeCatalog f)) (some (normalizeCatalog f))
        argv locales ts).dupesRemoved = 0 ∧
    (run true (serializeCatalog (normalizeCatalog f)) (some (normalizeCatalog f))
        argv locales ts).exitCode = 0 := by
  refine ⟨normalizeCatalog_idem f, ?_, ?_, ?_⟩
  · rw [run_some_eq, runSome_feedsWrite, normalizeCatalog_idem]
    simp
  · rw [run_some_eq, runSome_dupesRemoved, totalDupes_normalizeCatalog]
  · rw [run_some_eq, runSome_exitCode]

/-- C4: when the file exists but the loaded module has no `feeds` attribute,
`main` prints the diagnostic and returns 1 without writing any file. -/
theorem missing_feeds_dict_fatal (content : String) (argv : List String)
    (locales : List (String × LocaleDoc)) (ts : String) :
    (run true content none argv locales ts).exitCode = 1 ∧
    (run true content none argv locales ts).feedsWrite = none ∧
    (run true content none argv locales ts).issuesWrite = none ∧
    "❌ Could not find \x27feeds\x27 dictionary in core_feeds.py"
      ∈ (run true content none argv locales ts).messages := by
  refine ⟨rfl, rfl, rfl, ?_⟩
  show _ ∈ ["📄 Reading " ++ CORE_FEEDS_FILE,
    "❌ Could not find \x27feeds\x27 dictionary in core_feeds.py"]
  exact List.mem_cons_of_mem _ (List.mem_singleton.mpr rfl)

/-- C5: when the configuration file does not exist, `main` exits with code 0,
writes nothing (no rewrite, no issue file), and prints the skip message. -/
theorem missing_file_skips (content : String) (feedsAttr : Option Catalog)
    (argv : List String) (locales : List (String × LocaleDoc)) (ts : String) :
    run false content feedsAttr argv locales ts =
      { exitCode := 0
      , feedsWrite := none
      , issuesWrite := none
      , issuesPrint := none
      , messages := ["ℹ️  " ++ CORE_FEEDS_FILE ++ " does not exist, skipping"]
      , dupesRemoved := 0 } := rfl

/-- C6: the configuration file is overwritten exactly when the regenerated
serialization differs from the original content; when they are equal nothing
is written. -/
theorem rewrite_iff_content_changed (content : String) (f : Catalog)
    (argv : List String) (locales : List (String × LocaleDoc)) (ts : String) :
    (serializeCatalog (normalizeCatalog f) ≠ content ∧
      (run true content (some f) argv locales ts).feedsWrite
        = some (serializeCatalog (normalizeCatalog f))) ∨
    (serializeCatalog (normalizeCatalog f) = content ∧
      (run true content (some f) argv locales ts).feedsWrite = none) := by
  rw [run_some_eq, runSome_feedsWrite]
  by_cases h : serializeCatalog (normalizeCatalog f) = content
  · right
    exact ⟨h, by rw [if_neg (by simpa using h)]⟩
  · left
    exact ⟨h, by rw [if_pos h]⟩

/-- C7: per category the reported duplicate count is
`len(input) - len(set(input))`, and the reported total is the sum of the
per-category counts. -/
theorem duplicate_counts_correct (f : Catalog) (c : String) :
    (duplicates (lookupD f c)).length
      = (lookupD f c).length - (lookupD f c).dedup.length ∧
    totalDupes f
      = ((sortedKeys f).map
          (fun k => (duplicates (lookupD f k)).length)).sum := by
  exact ⟨duplicates_length (lookupD f c), totalDupes_eq_sum f⟩

/-- C8: after normalization the category keys (the order in which the
serializer emits the blocks, since sorting the already-sorted key list leaves
it unchanged) are in strictly ascending lexicographic order, and each stored
entry list is strictly sorted, hence unique and sorted. -/
theorem serialized_catalog_sorted (f : Catalog) (hk : (keys f).Nodup) :
    (keys (normalizeCatalog f)).Sorted (· < ·) ∧
    pySorted (keys (normalizeCatalog f)) = keys (normalizeCatalog f) ∧
    ∀ p ∈ normalizeCatalog f, (p.2 : List String).Sorted (· < ·) := by
  refine ⟨?_, ?_, ?_⟩
  · rw [keys_normalizeCatalog]
    exact (pySorted_sorted (keys f)).lt_of_le (pySorted_nodup hk)
  · rw [keys_normalizeCatalog]
    exact pySorted_eq_self_of_sorted (pySorted_sorted (keys f))
  · intro p hp
    rw [normalizeCatalog, List.mem_map] at hp
    obtain ⟨c, _, rfl⟩ := hp
    exact sortedSet_sorted_lt (lookupD f c)

/-! ### Counting the auditor's issues -/

theorem string_sandwich_inj {pre post a b : String}
    (h : pre ++ a ++ post = pre ++ b ++ post) : a = b := by
  have hd : (pre.data ++ a.data) ++ post.data = (pre.data ++ b.data) ++ post.data := by
    have h2 := congrArg String.data h
    simpa [String.data_append] using h2
  have h3 : a.data = b.data :=
    List.append_cancel_left (List.append_cancel_right hd)
  cases a; cases b
  exact congrArg String.mk h3

/-- Two missing-translation issues coincide only for the same locale and the
same category: the file path determines the locale stem and the message
determines the category. -/
theorem missingIssue_inj {n n' c c' : String}
    (h : missingIssue n c = missingIssue n' c') : n = n' ∧ c = c' := by
  have hf := congrArg Issue.file h
  have hm := congrArg Issue.message h
  simp only [missingIssue] at hf hm
  exact ⟨string_sandwich_inj hf, string_sandwich_inj hm⟩

theorem count_map_missingIssue (m : List String) (hm : m.Nodup)
    (n' n c : String) :
    (m.map (missingIssue n')).count (missingIssue n c)
      = if n' = n ∧ c ∈ m then 1 else 0 := by
  induction m with
  | nil => simp
  | cons a rest ih =>
    have hrest : rest.Nodup := hm.of_cons
    have hna : a ∉ rest := (List.nodup_cons.mp hm).1
    rw [List.map_cons, List.count_cons, ih hrest]
    by_cases he : missingIssue n c = missingIssue n' a
    · obtain ⟨hn, hc⟩ := missingIssue_inj he
      subst hn
      subst hc
      simp [hna]
    · have hbeq : (missingIssue n' a == missingIssue n c) = false := by
        simp only [beq_eq_false_iff_ne, ne_eq]
        exact fun hh => he hh.symm
      rw [hbeq]
      by_cases hn : n' = n
      · subst hn
        have hca : c ≠ a := fun hh => he (by rw [hh])
        simp [List.mem_cons, hca]
      · simp [hn]

theorem count_localeIssues (cats : List String) (hcats : cats.Nodup)
    (n' n c : String) (d : LocaleDoc) :
    (localeIssues cats n' d).count (missingIssue n c)
      = if n' = n ∧ c ∈ cats ∧ c ∉ getCategories d then 1 else 0 := by
  unfold localeIssues
  rw [count_map_missingIssue _ (hcats.filter _) n' n c]
  have hiff : (n' = n ∧ c ∈ cats.filter (fun x => !((getCategories d).contains x)))
      ↔ (n' = n ∧ c ∈ cats ∧ c ∉ getCategories d) := by
    rw [List.mem_filter]
    simp
  by_cases hcond : n' = n ∧ c ∈ cats ∧ c ∉ getCategories d
  · rw [if_pos (hiff.mpr hcond), if_pos hcond]
  · rw [if_neg (fun hh => hcond (hiff.mp hh)), if_neg hcond]

theorem analyzeTranslations_cons (feeds : Catalog)
    (l : String × LocaleDoc) (rest : List (String × LocaleDoc)) :
    analyzeTranslations (some (some feeds)) (l :: rest)
      = localeIssues (keys feeds).dedup l.1 l.2
        ++ analyzeTranslations (some (some feeds)) rest := by
  simp [analyzeTranslations]

theorem count_analyzeTranslations_not_mem (feeds : Catalog)
    (locales : List (String × LocaleDoc)) (n c : String)
    (h : n ∉ locales.map Prod.fst) :
    (analyzeTranslations (some (some feeds)) locales).count (missingIssue n c)
      = 0 := by
  induction locales with
  | nil => rfl
  | cons l rest ih =>
    rw [analyzeTranslations_cons, List.count_append]
    have hl : l.1 ≠ n := by
      intro hh
      exact h (by rw [List.map_cons, hh]; exact List.mem_cons_self _ _)
    rw [count_localeIssues _ (List.nodup_dedup _) l.1 n c, if_neg (fun hh => hl hh.1)]
    rw [ih (fun hh => h (List.mem_cons_of_mem _ hh))]

/-- For a locale of the audited directory, the count of missing-translation
issues naming a given category: exactly one when the category is a catalog
category absent from the locale's `categories` object, zero otherwise (in
particular zero for categories outside the catalog). -/
theorem count_analyzeTranslations (feeds : Catalog)
    (locales : List (String × LocaleDoc))
    (hn : (locales.map Prod.fst).Nodup)
    {name : String} {doc : LocaleDoc} (hmem : (name, doc) ∈ locales)
    (c : String) :
    (analyzeTranslations (some (some feeds)) locales).count (missingIssue name c)
      = if c ∈ keys feeds ∧ c ∉ getCategories doc then 1 else 0 := by
  induction locales with
  | nil => cases hmem
  | cons l rest ih =>
    rw [analyzeTranslations_cons, List.count_append]
    have hn' : (rest.map Prod.fst).Nodup := by
      rw [List.map_cons, List.nodup_cons] at hn
      exact hn.2
    rcases List.mem_cons.mp hmem with heq | hrest
    · have hl1 : l.1 = name := by rw [← heq]
      have hl2 : l.2 = doc := by rw [← heq]
      have hnotin : name ∉ rest.map Prod.fst := by
        rw [List.map_cons, List.nodup_cons] at hn
        exact hl1 ▸ hn.1
      rw [count_analyzeTranslations_not_mem feeds rest name c hnotin]
      rw [count_localeIssues _ (List.nodup_dedup _) l.1 name c, hl1, hl2]
      by_cases hcond : c ∈ keys feeds ∧ c ∉ getCategories doc
    -- membership in the dedup'd key list is membership in the key list
      · rw [if_pos ⟨rfl, List.mem_dedup.mpr hcond.1, hcond.2⟩, if_pos hcond]
      · rw [if_neg, if_neg hcond]
        intro hh
        exact hcond ⟨List.mem_dedup.mp hh.2.1, hh.2.2⟩
    · have hl1 : l.1 ≠ name := by
        intro hh
        rw [List.map_cons, List.nodup_cons] at hn
        exact hn.1 (hh ▸ (List.mem_map.mpr ⟨(name, doc), hrest, rfl⟩))
      rw [count_localeIssues _ (List.nodup_dedup _) l.1 name c,
        if_neg (fun hh => hl1 hh.1), ih hn' hrest]
      omega

/-! ### Argument handling lemmas -/

theorem findIdx_append_last {pre : List String}
    (h : "--output-file" ∉ pre) :
    (pre ++ ["--output-file"]).findIdx (fun a => a == "--output-file")
      = pre.length := by
  induction pre with
  | nil => simp [List.findIdx_cons]
  | cons a rest ih =>
    have ha : (a == "--output-file") = false := by
      simp only [beq_eq_false_iff_ne, ne_eq]
      intro hcon
      exact h (hcon ▸ List.mem_cons_self a rest)
    rw [List.cons_append, List.findIdx_cons, ha]
    simp [ih (fun hm => h (List.mem_cons_of_mem a hm))]

/-- When `--output-file` is the last argument, the index check
`idx + 1 < len(sys.argv)` fails and no output path is taken. -/
theorem outputFileArg_dangling {pre : List String}
    (h : "--output-file" ∉ pre) :
    outputFileArg (pre ++ ["--output-file"]) = none := by
  unfold outputFileArg
  rw [if_pos (by simp), findIdx_append_last h]
  apply List.getElem?_eq_none
  simp

/-- Witness for C8 on a small two-category catalog. -/
theorem serialized_catalog_sorted_witness :
    ((keys [("tech", ["b", "a"]), ("news", ["n", "n"])]).Nodup) ∧
    ((keys (normalizeCatalog [("tech", ["b", "a"]), ("news", ["n", "n"])])).Sorted (· < ·) ∧
      pySorted (keys (normalizeCatalog [("tech", ["b", "a"]), ("news", ["n", "n"])]))
        = keys (normalizeCatalog [("tech", ["b", "a"]), ("news", ["n", "n"])]) ∧
      ∀ p ∈ normalizeCatalog [("tech", ["b", "a"]), ("news", ["n", "n"])],
        (p.2 : List String).Sorted (· < ·)) :=
  ⟨by decide,
    serialized_catalog_sorted [("tech", ["b", "a"]), ("news", ["n", "n"])] (by decide)⟩

/-- C3: the auditor emits, for a locale file and a catalog category, exactly
one issue — of type "missing", for that locale's file path, with the message
naming the category and severity "warning" — precisely when the category is
absent from the locale document's `categories` object; a category outside the
catalog's key set never produces an issue.  Locale stems are distinct (one
file per locale in one directory). -/
theorem auditor_missing_issue_iff (feeds : Catalog)
    (locales : List (String × LocaleDoc))
    (hn : (locales.map Prod.fst).Nodup)
    (name : String) (doc : LocaleDoc) (hmem : (name, doc) ∈ locales)
    (c : String) :
    (missingIssue name c).type = "missing" ∧
    (missingIssue name c).severity = "warning" ∧
    (missingIssue name c).file = "src/lib/locales/" ++ name ++ ".json" ∧
    (missingIssue name c).message
      = "Missing translation for core category \x27" ++ c ++ "\x27" ∧
    (analyzeTranslations (some (some feeds)) locales).count (missingIssue name c)
      = if c ∈ keys feeds ∧ c ∉ getCategories doc then 1 else 0 :=
  ⟨rfl, rfl, rfl, rfl, count_analyzeTranslations feeds locales hn hmem c⟩

/-- Witness for C3 on the spec's scenario: catalog categories
`{"tech", "news"}`, locale `en` translating only `tech`. -/
theorem auditor_missing_issue_iff_witness :
    (([("en", LocaleDoc.mk (some ["tech"]))].map Prod.fst).Nodup) ∧
    (("en", LocaleDoc.mk (some ["tech"])) ∈ [("en", LocaleDoc.mk (some ["tech"]))]) ∧
    ((missingIssue "en" "news").type = "missing" ∧
      (missingIssue "en" "news").severity = "warning" ∧
      (missingIssue "en" "news").file = "src/lib/locales/" ++ "en" ++ ".json" ∧
      (missingIssue "en" "news").message
        = "Missing translation for core category \x27" ++ "news" ++ "\x27" ∧
      (analyzeTranslations (some (some [("tech", ["t"]), ("news", ["u"])]))
          [("en", LocaleDoc.mk (some ["tech"]))]).count (missingIssue "en" "news")
        = if "news" ∈ keys [("tech", ["t"]), ("news", ["u"])] ∧
              "news" ∉ getCategories (LocaleDoc.mk (some ["tech"]))
          then 1 else 0) :=
  ⟨by decide, by decide,
    auditor_missing_issue_iff [("tech", ["t"]), ("news", ["u"])]
      [("en", LocaleDoc.mk (some ["tech"]))] (by decide) "en"
      (LocaleDoc.mk (some ["tech"])) (by decide) "news"⟩

/-- C9: with `--output-issues` and `--output-file <path>` for a non-empty
path (line 150's `if output_file:` is a Python truthiness test, so an empty
path string behaves as unset and the report is printed instead), the report
written to `<path>` is exactly the IssueReport record: type "feeds", the
issue list, `totalIssues` equal to the length of that list, the by-type
tally, and the timestamp. -/
theorem issue_report_written_shape (content : String) (f : Catalog)
    (argv : List String) (locales : List (String × LocaleDoc)) (ts : String)
    (path : String) (h1 : "--output-issues" ∈ argv)
    (h2 : outputFileArg argv = some path) (hp : path ≠ "") :
    (run true content (some f) argv locales ts).issuesWrite
      = some (path,
          { type := "feeds"
          , issues := analyzeTranslations (some (some (normalizeCatalog f))) locales
          , totalIssues :=
              (analyzeTranslations (some (some (normalizeCatalog f))) locales).length
          , byType := countByType
              (analyzeTranslations (some (some (normalizeCatalog f))) locales)
          , timestamp := ts }) := by
  rw [run_some_eq]
  exact (runSome_issues_of_outputFile content f argv locales ts h1 h2 hp).1

/-- Witness for C9 with the flags of the spec's scenario. -/
theorem issue_report_written_shape_witness :
    ("--output-issues" ∈ ["--output-issues", "--output-file", "report.json"]) ∧
    (outputFileArg ["--output-issues", "--output-file", "report.json"]
      = some "report.json") ∧
    ("report.json" ≠ "") ∧
    ((run true "" (some []) ["--output-issues", "--output-file", "report.json"]
        [] "2024-01-01T00:00:00+00:00").issuesWrite
      = some ("report.json",
          { type := "feeds"
          , issues := analyzeTranslations (some (some (normalizeCatalog []))) []
          , totalIssues :=
              (analyzeTranslations (some (some (normalizeCatalog []))) []).length
          , byType := countByType
              (analyzeTranslations (some (some (normalizeCatalog []))) [])
          , timestamp := "2024-01-01T00:00:00+00:00" })) :=
  ⟨by decide, by decide, by decide,
    issue_report_written_shape "" [] ["--output-issues", "--output-file", "report.json"]
      [] "2024-01-01T00:00:00+00:00" "report.json" (by decide) (by decide) (by decide)⟩

/-- C10: when `--output-issues` is given and `--output-file` is the last
argument with no path after it, the run still succeeds (exit code 0), no
issues file is written, and the report is printed to standard output. -/
theorem dangling_output_file_prints (content : String) (f : Catalog)
    (pre : List String) (locales : List (String × LocaleDoc)) (ts : String)
    (h1 : "--output-issues" ∈ pre) (h2 : "--output-file" ∉ pre) :
    (run true content (some f) (pre ++ ["--output-file"]) locales ts).exitCode
        = 0 ∧
    (run true content (some f) (pre ++ ["--output-file"]) locales ts).issuesWrite
        = none ∧
    (run true content (some f) (pre ++ ["--output-file"]) locales ts).issuesPrint
        = some (mkIssueReport
            (analyzeTranslations (some (some (normalizeCatalog f))) locales) ts) := by
  have h1' : "--output-issues" ∈ pre ++ ["--output-file"] :=
    List.mem_append_left _ h1
  have h2' := outputFileArg_dangling h2
  refine ⟨?_, ?_, ?_⟩
  · rw [run_some_eq, runSome_exitCode]
  · rw [run_some_eq]
    exact (runSome_issues_of_no_outputFile content f _ locales ts h1' h2').1
  · rw [run_some_eq]
    exact (runSome_issues_of_no_outputFile content f _ locales ts h1' h2').2

/-- Witness for C10: `sys.argv` ends in a bare `--output-file`. -/
theorem dangling_output_file_prints_witness :
    ("--output-issues" ∈ ["--output-issues"]) ∧
    ("--output-file" ∉ ["--output-issues"]) ∧
    ((run true "" (some []) (["--output-issues"] ++ ["--output-file"]) [] "t").exitCode
        = 0 ∧
      (run true "" (some []) (["--output-issues"] ++ ["--output-file"]) [] "t").issuesWrite
        = none ∧
      (run true "" (some []) (["--output-issues"] ++ ["--output-file"]) [] "t").issuesPrint
        = some (mkIssueReport
            (analyzeTranslations (some (some (normalizeCatalog []))) []) "t")) :=
  ⟨by decide, by decide,
    dangling_output_file_prints "" [] ["--output-issues"] [] "t"
      (by decide) (by decide)⟩

end SortCoreFeeds
